import Mathlib

/- Shallow embedding of the Demo_Insight_engine aggregation pipeline
   (phases 1, 2, 3 and 5): the merge, grouping, metric, validator and
   writer logic, with the Python string primitives modelled over
   character lists so that every definition evaluates inside the kernel. -/

/-- Python str.upper over the underlying character list. -/
def pyUpper (s : String) : String := String.mk (s.data.map Char.toUpper)

/-- Python str.strip: drop leading and trailing whitespace. -/
def pyStrip (s : String) : String :=
  String.mk (((s.data.dropWhile Char.isWhitespace).reverse.dropWhile Char.isWhitespace).reverse)

/-- One merged student-question record, as produced by phase-1 merge_data
    (one row of merged.json). Phase 4 adds a test_name key before phase 5
    reads the records back; a record whose test_name key is absent reads
    as "Unknown" through dict.get, which the default value models. -/
structure MergedRecord where
  student_id : String
  question_id : Int
  question_text : String
  options_map : List (String × String)
  subject : String
  chapter : String
  topic : String
  correct_option : String
  student_selected_option : String
  test_name : String := "Unknown"
deriving Repr, DecidableEq

/-- phase2/data_processor.py determine_correctness: unattempted when the
    selection is empty (or all whitespace), correct on a case-insensitive
    match after stripping, wrong otherwise. -/
def determine_correctness (correct_option student_selected : String) : String :=
  if student_selected = "" ∨ pyStrip student_selected = "" then "unattempted"
  else if pyUpper (pyStrip correct_option) = pyUpper (pyStrip student_selected) then "correct"
  else "wrong"

/-- The clean question object phase 2 hands to the model. merged.json
    records carry an options_map but no bare options key, so the
    dict.get("options", []) in the source always yields the default. -/
structure QuestionObj where
  question_id : String
  question_text : String
  options : List String
  correct_answer : String
  student_selected_option : String
deriving Repr, DecidableEq

/-- phase2/data_processor.py build_question_object. -/
def build_question_object (q : MergedRecord) : QuestionObj :=
  { question_id := toString q.question_id
    question_text := q.question_text
    options := []
    correct_answer := q.correct_option
    student_selected_option := q.student_selected_option }

/-- Python round(x, 2) over exact rationals: scale, round to the nearest
    integer, scale back. -/
def round2 (x : ℚ) : ℚ := (round (x * 100) : ℤ) / 100

/-- Result of phase-2 calculate_topic_metadata. -/
structure TopicMetadata where
  topic_accuracy : ℚ
  attempt_ratio : ℚ
deriving Repr, DecidableEq

/-- phase2/data_processor.py calculate_topic_metadata. -/
def calculate_topic_metadata (topic_questions : List MergedRecord) : TopicMetadata :=
  let total := topic_questions.length
  if total = 0 then { topic_accuracy := 0, attempt_ratio := 0 }
  else
    let correct_count := topic_questions.countP
      (fun q => determine_correctness q.correct_option q.student_selected_option == "correct")
    let attempted_count := topic_questions.countP
      (fun q => !(determine_correctness q.correct_option q.student_selected_option == "unattempted"))
    { topic_accuracy := round2 (((correct_count : ℚ) / (total : ℚ)) * 100)
      attempt_ratio := round2 (((attempted_count : ℚ) / (total : ℚ)) * 100) }

/-- Keys of a Python dict built by inserting each list element in order
    (defaultdict grouping): first-appearance order, no duplicates. -/
def dictKeys (f : α → String) (xs : List α) : List String :=
  xs.foldl (fun ks x => if f x ∈ ks then ks else ks ++ [f x]) []

/-- One topic entry of a phase-2 subject chunk (the dict appended to
    topics in group_by_student_subject_topic). -/
structure TopicStruct where
  topic_name : String
  metadata : TopicMetadata
  correct_questions : List QuestionObj
  wrong_questions : List QuestionObj
  unattempted_questions : List QuestionObj
deriving Repr, DecidableEq

/-- The per-topic loop of group_by_student_subject_topic: group the
    subject questions by topic and split each group into the correct,
    wrong and remaining (unattempted) partitions; the if/elif/else chain
    of the source appends each question to exactly one list, which the
    three order-preserving filters reproduce. -/
def build_topics (subject_questions : List MergedRecord) : List TopicStruct :=
  (dictKeys (fun q => q.topic) subject_questions).map (fun topic_name =>
    let topic_questions := subject_questions.filter (fun q => q.topic == topic_name)
    { topic_name := topic_name
      metadata := calculate_topic_metadata topic_questions
      correct_questions := (topic_questions.filter (fun q =>
        determine_correctness q.correct_option q.student_selected_option == "correct")).map
        build_question_object
      wrong_questions := (topic_questions.filter (fun q =>
        determine_correctness q.correct_option q.student_selected_option == "wrong")).map
        build_question_object
      unattempted_questions := (topic_questions.filter (fun q =>
        !(determine_correctness q.correct_option q.student_selected_option == "correct") &&
        !(determine_correctness q.correct_option q.student_selected_option == "wrong"))).map
        build_question_object })

/-- A subject chunk ready for the model call. -/
structure SubjectChunk where
  test_name : String
  subject : String
  topics : List TopicStruct
deriving Repr, DecidableEq

/-- phase2/data_processor.py group_by_student_subject_topic: records with
    an empty student_id are dropped, then grouped student → subject →
    topic; dict iteration order is first-appearance order. -/
def group_by_student_subject_topic (merged_data : List MergedRecord) (test_name : String) :
    List (String × List SubjectChunk) :=
  let valid := merged_data.filter (fun r => !(r.student_id == ""))
  (dictKeys (fun r => r.student_id) valid).map (fun sid =>
    let questions := valid.filter (fun r => r.student_id == sid)
    (sid, (dictKeys (fun r => r.subject) questions).map (fun subj =>
      { test_name := test_name
        subject := subj
        topics := build_topics (questions.filter (fun q => q.subject == subj)) })))

/-- Question details held by the phase-1 question_map (one value of the
    question_number keyed dict built from questionpaper.json). -/
structure QuestionDetails where
  question_text : String
  options : List String
  options_map : List (String × String)
  subject : String
  chapter : String
  topic : String
deriving Repr, DecidableEq

/-- Python dict assignment m[k] = v: overwrite an existing key in place,
    append a fresh key at the end. -/
def dictInsert [DecidableEq κ] (m : List (κ × α)) (k : κ) (v : α) : List (κ × α) :=
  if m.any (fun p => p.1 = k) then m.map (fun p => if p.1 = k then (k, v) else p)
  else m ++ [(k, v)]

/-- Python dict lookup (first matching key of an overwrite-built list is
    its only occurrence). -/
def dictFind [DecidableEq κ] : List (κ × α) → κ → Option α
  | [], _ => none
  | p :: rest, k => if p.1 = k then some p.2 else dictFind rest k

/-- The answer_map build loop of phase1/merge_data.py: each answer key
    row is stripped and uppercased, then dict-assigned under its
    question id. -/
def build_answer_map (rows : List (Int × String)) : List (Int × String) :=
  rows.foldl (fun m r => dictInsert m r.1 (pyUpper (pyStrip r.2))) []

/-- One row of the response sheet: a question number plus, per student
    column, the raw cell (none models a NaN cell). -/
structure ResponseRow where
  question_number : Int
  responses : List (String × Option String)
deriving Repr, DecidableEq

/-- The record built per (row, student) pair in phase1/merge_data.py:
    the cell is stripped and uppercased and kept only when it is exactly
    one of A-D, anything else becoming "" (unattempted). -/
def build_merged_record (q_num : Int) (q_details : QuestionDetails) (correct_option : String)
    (student_id : String) (cell : Option String) : MergedRecord :=
  let selected_raw := match cell with
    | none => ""
    | some s => pyUpper (pyStrip s)
  let selected_option := if selected_raw ∈ (["A", "B", "C", "D"] : List String)
    then selected_raw else ""
  { student_id := student_id
    question_id := q_num
    question_text := q_details.question_text
    options_map := q_details.options_map
    subject := q_details.subject
    chapter := q_details.chapter
    topic := q_details.topic
    correct_option := correct_option
    student_selected_option := selected_option }

/-- The row loop of phase1/merge_data.py process: a question number
    absent from the question map is skipped with a warning; a question
    number whose correct answer is unresolvable (absent from the answer
    map, or falsy i.e. empty) raises, aborting the whole merge; otherwise
    one record per student column is appended. -/
def merge_rows (question_map : List (Int × QuestionDetails)) (answer_map : List (Int × String)) :
    List ResponseRow → Except String (List MergedRecord)
  | [] => Except.ok []
  | row :: rest =>
    match dictFind question_map row.question_number with
    | none => merge_rows question_map answer_map rest
    | some q_details =>
      match dictFind answer_map row.question_number with
      | none => Except.error ("Missing correct answer for question " ++ toString row.question_number)
      | some correct_option =>
        if correct_option = "" then
          Except.error ("Missing correct answer for question " ++ toString row.question_number)
        else
          (merge_rows question_map answer_map rest).map (fun tail =>
            (row.responses.map (fun p =>
              build_merged_record row.question_number q_details correct_option p.1 p.2)) ++ tail)

/-- phase5/data_processor.py is_wrong_question: wrong OR unattempted. -/
def is_wrong_question (record : MergedRecord) : Bool :=
  let correct := pyUpper (pyStrip record.correct_option)
  let selected := pyUpper (pyStrip record.student_selected_option)
  (selected != correct) || (selected == "")

/-- Result of phase-5 calculate_topic_metrics. -/
structure TopicMetrics where
  accuracy : ℚ
  weighted_accuracy : ℚ
  total_questions : ℕ
  correct_count : ℤ
  wrong_count : ℕ
deriving Repr, DecidableEq

/-- phase5/data_processor.py calculate_topic_metrics: the weight is
    total/100, so weighted_accuracy = round2(accuracy * total/100). -/
def calculate_topic_metrics (all_questions wrong_questions : List MergedRecord) : TopicMetrics :=
  let total := all_questions.length
  let wrong_count := wrong_questions.length
  let correct_count : ℤ := (total : ℤ) - (wrong_count : ℤ)
  let accuracy : ℚ := if 0 < total then round2 (((correct_count : ℚ) / (total : ℚ)) * 100) else 0
  let weight : ℚ := (total : ℚ) / 100
  { accuracy := accuracy
    weighted_accuracy := round2 (accuracy * weight)
    total_questions := total
    correct_count := correct_count
    wrong_count := wrong_count }

/-- The wrong-question detail dict built inside group_by_topic. -/
structure WrongQuestionDetail where
  question_id : Int
  question_text : String
  options_map : List (String × String)
  correct_option : String
  student_selected_option : String
  test_name : String
deriving Repr, DecidableEq

/-- One value of the phase-5 topic_groups dict. -/
structure TopicGroup where
  topic_name : String
  chapter : String
  subject : String
  accuracy : ℚ
  weighted_accuracy : ℚ
  total_questions : ℕ
  correct_count : ℤ
  wrong_count : ℕ
  wrong_questions : List WrongQuestionDetail
deriving Repr, DecidableEq

/-- phase5/data_processor.py group_by_topic: group every record by topic,
    keep only the wrong (wrong-or-unattempted) ones per topic, skip
    topics whose wrong list is empty, and attach the metrics; chapter and
    subject come from the first record seen for the topic. -/
def group_by_topic (student_records : List MergedRecord) : List (String × TopicGroup) :=
  (dictKeys (fun r => r.topic) student_records).filterMap (fun topic =>
    let all_questions := student_records.filter (fun r => r.topic == topic)
    let wrong_questions := all_questions.filter is_wrong_question
    if wrong_questions.isEmpty then none
    else
      let metrics := calculate_topic_metrics all_questions wrong_questions
      some (topic,
        { topic_name := topic
          chapter := ((all_questions.head?).map (fun r => r.chapter)).getD "Unknown"
          subject := ((all_questions.head?).map (fun r => r.subject)).getD "Unknown"
          accuracy := metrics.accuracy
          weighted_accuracy := metrics.weighted_accuracy
          total_questions := metrics.total_questions
          correct_count := metrics.correct_count
          wrong_count := metrics.wrong_count
          wrong_questions := wrong_questions.map (fun q =>
            { question_id := q.question_id
              question_text := q.question_text
              options_map := q.options_map
              correct_option := q.correct_option
              student_selected_option := q.student_selected_option
              test_name := q.test_name }) }))

/-- The per-student loop of phase5/data_processor.py process_all_students:
    a student with no records is skipped, and a student whose
    group_by_topic output is empty (no weak topics) is skipped, never
    producing an empty entry. -/
def process_all_students (students : List (String × List MergedRecord)) :
    List (String × List (String × TopicGroup)) :=
  students.filterMap (fun p =>
    if p.2.isEmpty then none
    else
      let topic_groups := group_by_topic p.2
      if topic_groups.isEmpty then none else some (p.1, topic_groups))

/-- Untyped JSON-like value delivered by the model boundary. -/
inductive JVal where
  | null : JVal
  | str : String → JVal
  | num : ℚ → JVal
  | arr : List JVal → JVal
  | obj : List (String × JVal) → JVal
deriving Repr

mutual
/-- Structural equality test on JSON values (Python ==). -/
def JVal.beq : JVal → JVal → Bool
  | .null, .null => true
  | .str a, .str b => a == b
  | .num a, .num b => a == b
  | .arr a, .arr b => JVal.beqList a b
  | .obj a, .obj b => JVal.beqFields a b
  | _, _ => false
/-- Structural equality on JSON arrays. -/
def JVal.beqList : List JVal → List JVal → Bool
  | [], [] => true
  | a :: as, b :: bs => JVal.beq a b && JVal.beqList as bs
  | _, _ => false
/-- Structural equality on JSON object field lists. -/
def JVal.beqFields : List (String × JVal) → List (String × JVal) → Bool
  | [], [] => true
  | a :: as, b :: bs => (a.1 == b.1 && JVal.beq a.2 b.2) && JVal.beqFields as bs
  | _, _ => false
end

/-- A JSON object body: the Python dict a validator repairs in place. -/
abbrev JDict : Type := List (String × JVal)

/-- Python k in d on a JSON object body. -/
def jHasKey (d : JDict) (k : String) : Bool :=
  (d : List (String × JVal)).any (fun p => p.1 = k)

/-- Python d.get(k) on a JSON object body (None when absent). -/
def jLookup : JDict → String → Option JVal
  | [], _ => none
  | p :: rest, k => if p.1 = k then some p.2 else jLookup rest k

/-- Python d[k] = v on a JSON object body. -/
def jSet (d : JDict) (k : String) (v : JVal) : JDict :=
  dictInsert (d : List (String × JVal)) k v

/-- Python truthiness of a JSON value. -/
def pyTruthy : JVal → Bool
  | .null => false
  | .str s => !(s == "")
  | .num q => !(q = 0)
  | .arr xs => !xs.isEmpty
  | .obj fs => !fs.isEmpty

/-- Python str(v) for the values the validators stringify; the textual
    repr of containers is not depended on by any property and is kept
    abstract as a placeholder text. -/
def pyStr : JVal → String
  | .str s => s
  | .null => "None"
  | .num q => toString q
  | .arr _ => "<list>"
  | .obj _ => "<dict>"

/-- Python float(v) for the accuracy coercion; parsing of numeric string
    literals is not modelled, so non-numbers fail (the try/except of the
    source then substitutes 0.0). -/
def pyFloat? : JVal → Option ℚ
  | .num q => some q
  | _ => none

/-- True exactly on JSON objects (Python isinstance(x, dict)). -/
def isJObj : JVal → Bool
  | .obj _ => true
  | _ => false

/-- A phase-3 insight after validation. -/
structure Insight3 where
  insight : String
  recommendation : String
  citation : String
deriving Repr, DecidableEq

/-- The padding item of phase-3 validate_and_repair_insights, indexed by
    the length of the validated list at append time. -/
def p3_pad_item (n : ℕ) : Insight3 :=
  { insight := "Additional pattern analysis needed (insight " ++ toString (n + 1) ++ ")"
    recommendation := "Continue monitoring performance across topics"
    citation := "Insufficient data for pattern detection" }

/-- One phase-3 field after repair: a present truthy value is kept,
    anything missing or falsy is replaced by the fallback, and the final
    value is stringified and stripped. -/
def p3_field (item : JDict) (k fallback : String) : String :=
  pyStrip (match jLookup item k with
    | some v => if pyTruthy v then pyStr v else fallback
    | none => fallback)

/-- The per-item repair of phase-3 validate_and_repair_insights; i is
    the enumerate index of the item in the raw response. -/
def p3_repair_item (i : ℕ) (item : JDict) : Insight3 :=
  { insight := p3_field item "insight" ("Pattern analysis incomplete for insight " ++ toString (i + 1))
    recommendation := p3_field item "recommendation" "Review performance data manually"
    citation := p3_field item "citation" "Insufficient data" }

/-- The enumerate loop of phase-3 validate_and_repair_insights: non-dict
    items are skipped, dict items are repaired and kept. -/
def p3_validate_items (i : ℕ) : List JVal → List Insight3
  | [] => []
  | JVal.obj fields :: rest => p3_repair_item i fields :: p3_validate_items (i + 1) rest
  | _ :: rest => p3_validate_items (i + 1) rest

/-- The cardinality step shared by phases 3 and 5: pad with fallback
    items below 5, truncate above 5. -/
def ensure_five (pad : ℕ → α) (validated : List α) : List α :=
  if validated.length < 5 then
    validated ++ (List.range (5 - validated.length)).map (fun k => pad (validated.length + k))
  else validated.take 5

/-- phase3/llm_analyzer.py validate_and_repair_insights: unwrap a dict
    (insights key, else wrap as a one-item list), reject any non-list
    with an empty result, then repair per item and enforce exactly 5. -/
def validate_and_repair_insights (response : JVal) : List Insight3 :=
  let unwrapped := match response with
    | JVal.obj fields =>
      match jLookup fields "insights" with
      | some v => v
      | none => JVal.arr [JVal.obj fields]
    | v => v
  match unwrapped with
  | JVal.arr items => ensure_five p3_pad_item (p3_validate_items 0 items)
  | _ => []

/-- A phase-5 insight after validation. -/
structure Insight5 where
  topic : String
  subject : String
  accuracy : ℚ
  problem : String
  action : String
  citation : String
deriving Repr, DecidableEq

/-- Required field set of phase-5 validate_insights. -/
def p5_required_fields : List String :=
  ["topic", "subject", "accuracy", "problem", "action", "citation"]

/-- The padding item of phase-5 validate_insights. -/
def p5_pad_item (_ : ℕ) : Insight5 :=
  { topic := "General"
    subject := "Overall"
    accuracy := 0
    problem := "Additional pattern analysis needed"
    action := "Continue monitoring performance across tests"
    citation := "Insufficient data for pattern detection" }

/-- The type coercions phase-5 validate_insights applies to an item that
    passed the required-field presence check. -/
def p5_coerce_item (item : JDict) : Insight5 :=
  let s := fun (k : String) => pyStrip (pyStr ((jLookup item k).getD (JVal.str "")))
  { topic := s "topic"
    subject := s "subject"
    accuracy := ((jLookup item "accuracy").getD (JVal.num 0) |> pyFloat?).getD 0
    problem := s "problem"
    action := s "action"
    citation := s "citation" }

/-- True when a JSON value is a dict holding every phase-5 required
    field. -/
def p5_has_all_fields : JVal → Bool
  | JVal.obj fields => p5_required_fields.all (fun f => jHasKey fields f)
  | _ => false

/-- The item loop of phase-5 validate_insights: non-dict items are
    skipped, and a dict missing ANY required field is skipped as well
    (continue), not repaired. -/
def p5_validate_items (items : List JVal) : List Insight5 :=
  items.filterMap (fun item => match item with
    | JVal.obj fields =>
      if p5_required_fields.all (fun f => jHasKey fields f)
      then some (p5_coerce_item fields) else none
    | _ => none)

/-- phase5/llm_analyzer.py validate_insights: unwrap only a dict that
    has an insights key, reject any non-list with an empty result, then
    validate per item and enforce exactly 5. -/
def validate_insights (response : JVal) : List Insight5 :=
  let unwrapped := match response with
    | JVal.obj fields =>
      match jLookup fields "insights" with
      | some v => v
      | none => JVal.obj fields
    | v => v
  match unwrapped with
  | JVal.arr items => ensure_five p5_pad_item (p5_validate_items items)
  | _ => []

/-- Required field set of phase-2 validate_and_repair_response. -/
def p2_required_fields : List String :=
  ["test_name", "subject", "topic_name",
   "strength_insights", "weakness_insights", "learning_recommendations"]

/-- The three list-typed phase-2 fields. -/
def p2_list_fields : List String :=
  ["strength_insights", "weakness_insights", "learning_recommendations"]

/-- The missing-field fill of phase-2 validate_and_repair_response for
    one field, with the phase-specific fallback; i is the enumerate
    index, used by the topic_name positional default. -/
def p2_fill_field (chunk : SubjectChunk) (i : ℕ) (item : JDict) (f : String) : JDict :=
  if jHasKey item f then item
  else if f = "test_name" then jSet item f (JVal.str chunk.test_name)
  else if f = "subject" then jSet item f (JVal.str chunk.subject)
  else if f = "topic_name" then
    jSet item f (JVal.str (((chunk.topics.map (fun t => t.topic_name)).get? i).getD
      ("Topic_" ++ toString (i + 1))))
  else jSet item f (JVal.arr [JVal.str "Insufficient data available to generate meaningful insights."])

/-- The ensure-arrays step of phase-2 validate_and_repair_response for
    one list field: a present non-list value is wrapped as a one-element
    list of its str(); an absent field becomes the "Data unavailable."
    list (dead in practice, since the fill step runs first). -/
def p2_ensure_array (item : JDict) (f : String) : JDict :=
  match jLookup item f with
  | some (JVal.arr _) => item
  | some v => jSet item f (JVal.arr [JVal.str (pyStr v)])
  | none => jSet item f (JVal.arr [JVal.str "Data unavailable."])

/-- The per-item repair of phase-2 validate_and_repair_response: fill
    every missing required field, then coerce the list-typed fields. -/
def p2_repair_item (chunk : SubjectChunk) (i : ℕ) (item : JDict) : JDict :=
  let filled := p2_required_fields.foldl (fun it f => p2_fill_field chunk i it f) item
  p2_list_fields.foldl (fun it f => p2_ensure_array it f) filled

/-- The enumerate loop of phase-2 validate_and_repair_response: non-dict
    items are skipped, dict items are repaired and kept. -/
def p2_validate_items (chunk : SubjectChunk) (i : ℕ) : List JVal → List JDict
  | [] => []
  | JVal.obj fields :: rest => p2_repair_item chunk i fields :: p2_validate_items chunk (i + 1) rest
  | _ :: rest => p2_validate_items chunk (i + 1) rest

/-- phase2/llm_analyzer.py validate_and_repair_response: a dict response
    is accepted only when it looks like a single topic (topic_name key),
    any other non-list yields the empty result; no cardinality step. -/
def validate_and_repair_response (response : JVal) (chunk : SubjectChunk) : List JDict :=
  match response with
  | JVal.obj fields =>
    if jHasKey fields "topic_name" then p2_validate_items chunk 0 [JVal.obj fields] else []
  | JVal.arr items => p2_validate_items chunk 0 items
  | _ => []

/-- The (test_name, topic_name) identity of a stored phase-2 insight
    dict, via dict.get with the "" default. -/
def insight_key (insight : JDict) : JVal × JVal :=
  ((jLookup insight "test_name").getD (JVal.str ""),
   (jLookup insight "topic_name").getD (JVal.str ""))

/-- Python == on identity pairs. -/
def key_beq (a b : JVal × JVal) : Bool := JVal.beq a.1 b.1 && JVal.beq a.2 b.2

/-- Python `key in existing_keys` membership test. -/
def key_mem (k : JVal × JVal) (ks : List (JVal × JVal)) : Bool := ks.any (key_beq k)

/-- One iteration of the append loop of phase-2 write_student_output:
    the key set of the accumulated list is exactly the image of
    insight_key over it, so the set is represented that way. -/
def upsert_step (acc : List JDict) (insight : JDict) : List JDict :=
  if key_mem (insight_key insight) (acc.map insight_key) then acc else acc ++ [insight]

/-- The merge of phase-2 write_student_output: append only insights
    whose (test_name, topic_name) identity is novel. -/
def upsert_insights (existing_insights insights : List JDict) : List JDict :=
  insights.foldl upsert_step existing_insights

/-- A persisted phase-2 student file. -/
structure StudentFile2 where
  student_id : String
  insights : List JDict
deriving Repr

/-- phase2/output_writer.py write_student_output as a pure map from the
    prior file state (none: absent or unparseable, treated as empty) to
    the written file content. -/
def write_student_output (student_id : String) (insights : List JDict)
    (file : Option StudentFile2) : StudentFile2 :=
  let existing_insights := match file with
    | some d => d.insights
    | none => []
  { student_id := student_id, insights := upsert_insights existing_insights insights }

/-- phase3/output_writer.py write_student_insights as a pure map on the
    student file: an absent (or unparseable) file is replaced by a fresh
    dict holding only student_id, then pattern_insights is assigned. -/
def p3_write_student_insights (file : Option JDict) (student_id : String) (v : JVal) : JDict :=
  match file with
  | some d => jSet d "pattern_insights" v
  | none => jSet [("student_id", JVal.str student_id)] "pattern_insights" v

/-- phase5/output_writer.py write_student_insights as a pure map on the
    phase-4 student file: when the file does not exist the writer logs a
    warning and returns without writing; otherwise phase5_insights is
    assigned. -/
def p5_write_student_insights (file : Option JDict) (v : JVal) : Option JDict :=
  match file with
  | none => none
  | some d => some (jSet d "phase5_insights" v)

/-- One row of the phase-5 summary JSON. -/
structure SummaryRow where
  student_id : String
  insight_rank : ℕ
  topic : String
  subject : String
  accuracy : ℚ
  problem : String
  action : String
  citation : String
deriving Repr, DecidableEq

/-- phase5/output_writer.py write_insights_json: one row per (student,
    insight), rank counted from 1. -/
def write_insights_json (all_insights : List (String × List Insight5)) : List SummaryRow :=
  all_insights.foldr (fun p acc =>
    (p.2.enum.map (fun e =>
      { student_id := p.1
        insight_rank := e.1 + 1
        topic := e.2.topic
        subject := e.2.subject
        accuracy := e.2.accuracy
        problem := e.2.problem
        action := e.2.action
        citation := e.2.citation })) ++ acc) []

/-- A concrete merged record: student S1 answered "a" where the key is
    "A" (correct, case-insensitively). -/
def rC1 : MergedRecord :=
  { student_id := "S1", question_id := 1, question_text := "q1", options_map := []
    subject := "Math", chapter := "Ch1", topic := "Algebra"
    correct_option := "A", student_selected_option := "a" }

/-- The topic bucket the phase-2 grouper builds from [rC1]. -/
def tC1 : TopicStruct :=
  { topic_name := "Algebra"
    metadata := calculate_topic_metadata [rC1]
    correct_questions := [build_question_object rC1]
    wrong_questions := []
    unattempted_questions := [] }

/-- The subject chunk built from [rC1]. -/
def cC1 : SubjectChunk := { test_name := "Test 1", subject := "Math", topics := [tC1] }

/-- The grouper output entry for student S1. -/
def pC1 : String × List SubjectChunk := ("S1", [cC1])

/-- A correctly answered concrete record. -/
def qOK : MergedRecord :=
  { student_id := "S1", question_id := 1, question_text := "q", options_map := []
    subject := "Math", chapter := "Ch", topic := "T"
    correct_option := "A", student_selected_option := "A" }

/-- A wrongly answered concrete record on the same topic. -/
def qBad : MergedRecord := { qOK with student_selected_option := "B" }

/-- A 200-question topic: 180 correct, 20 wrong. -/
def bigTopic : List MergedRecord := List.replicate 180 qOK ++ List.replicate 20 qBad

/-- An unattempted concrete record (empty selection). -/
def qUnattempted : MergedRecord := { qOK with student_selected_option := "" }

/-- Concrete question details for the merge examples. -/
def qd0 : QuestionDetails :=
  { question_text := "q1", options := ["x", "y"], options_map := [("A", "x"), ("B", "y")]
    subject := "Math", chapter := "Ch1", topic := "Algebra" }

/-- A concrete response row: student S1 answered "b" on question 1. -/
def mrow0 : ResponseRow := { question_number := 1, responses := [("S1", some "b")] }

/-- The record the merge builds from mrow0 under the answer key (1, a). -/
def mrec0 : MergedRecord := build_merged_record 1 qd0 "A" "S1" (some "b")

/-- The three correctness partitions of a question list are mutually
    exclusive and exhaustive, so their sizes sum to the list length. -/
theorem dc_partition_length (qs : List MergedRecord) :
    (qs.filter (fun q =>
      determine_correctness q.correct_option q.student_selected_option == "correct")).length
  + (qs.filter (fun q =>
      determine_correctness q.correct_option q.student_selected_option == "wrong")).length
  + (qs.filter (fun q =>
      !(determine_correctness q.correct_option q.student_selected_option == "correct") &&
      !(determine_correctness q.correct_option q.student_selected_option == "wrong"))).length
  = qs.length := by
  induction qs with
  | nil => rfl
  | cons q qs ih =>
    by_cases h1 : determine_correctness q.correct_option q.student_selected_option = "correct"
    · have e1 : (determine_correctness q.correct_option q.student_selected_option
        == "correct") = true := by simp [h1]
      have e2 : (determine_correctness q.correct_option q.student_selected_option
        == "wrong") = false := by simp [h1]
      simp [List.filter_cons, e1, e2]
      omega
    · by_cases h2 : determine_correctness q.correct_option q.student_selected_option = "wrong"
      · have e1 : (determine_correctness q.correct_option q.student_selected_option
          == "correct") = false := by simp [h2]
        have e2 : (determine_correctness q.correct_option q.student_selected_option
          == "wrong") = true := by simp [h2]
        simp [List.filter_cons, e1, e2]
        omega
      · have e1 : (determine_correctness q.correct_option q.student_selected_option
          == "correct") = false := by simp [h1]
        have e2 : (determine_correctness q.correct_option q.student_selected_option
          == "wrong") = false := by simp [h2]
        simp [List.filter_cons, e1, e2]
        omega

/-- C1: every topic bucket built by the phase-2 grouper partitions the
    topic's question set into correct, wrong and unattempted according to
    determine_correctness, so the three partition sizes sum to the total
    number of that student-subject-topic's questions. -/
theorem C1_topic_partition_exhaustive (merged_data : List MergedRecord) (test_name : String) :
    ∀ p ∈ group_by_student_subject_topic merged_data test_name, ∀ c ∈ p.2, ∀ t ∈ c.topics,
      t.correct_questions.length + t.wrong_questions.length + t.unattempted_questions.length
        = ((((merged_data.filter (fun r => !(r.student_id == ""))).filter
              (fun r => r.student_id == p.1)).filter
              (fun r => r.subject == c.subject)).filter
              (fun r => r.topic == t.topic_name)).length := by
  intro p hp c hc t ht
  unfold group_by_student_subject_topic at hp
  simp only [List.mem_map] at hp
  obtain ⟨sid, hsid, rfl⟩ := hp
  simp only at hc
  obtain ⟨subj, hsubj, rfl⟩ := List.mem_map.mp hc
  simp only [build_topics, List.mem_map] at ht
  obtain ⟨tname, htname, rfl⟩ := ht
  simp only [List.length_map]
  exact dc_partition_length _

/-- Witness for C1 at the one-record input [rC1]. -/
theorem C1_witness :
    tC1.correct_questions.length + tC1.wrong_questions.length + tC1.unattempted_questions.length
      = (((([rC1].filter (fun r => !(r.student_id == ""))).filter
            (fun r => r.student_id == pC1.1)).filter
            (fun r => r.subject == cC1.subject)).filter
            (fun r => r.topic == tC1.topic_name)).length :=
  C1_topic_partition_exhaustive [rC1] "Test 1" pC1
    (List.mem_singleton_self pC1) cC1 (List.mem_singleton_self cC1) tC1
    (List.mem_singleton_self tC1)

/-- round is monotone on rationals. -/
theorem round_mono_q {x y : ℚ} (h : x ≤ y) : round x ≤ round y := by
  rw [round_eq, round_eq]
  exact Int.floor_mono (by linarith)

/-- round2 of a nonnegative value is nonnegative. -/
theorem round2_nonneg {x : ℚ} (hx : 0 ≤ x) : 0 ≤ round2 x := by
  unfold round2
  have h0 : (0 : ℤ) ≤ round (x * 100) := by
    have h := round_mono_q (show (0 : ℚ) ≤ x * 100 by nlinarith)
    simpa using h
  exact div_nonneg (by exact_mod_cast h0) (by norm_num)

/-- round2 of a value at most 100 is at most 100. -/
theorem round2_le_100 {x : ℚ} (hx : x ≤ 100) : round2 x ≤ 100 := by
  unfold round2
  have h1 : round (x * 100) ≤ round ((10000 : ℚ)) := round_mono_q (by linarith)
  have h2 : round ((10000 : ℚ)) = 10000 := by norm_num
  rw [h2] at h1
  rw [div_le_iff₀ (by norm_num : (0 : ℚ) < 100)]
  calc ((round (x * 100) : ℤ) : ℚ) ≤ ((10000 : ℤ) : ℚ) := by exact_mod_cast h1
    _ = 100 * 100 := by norm_num

/-- A count-over-total percentage is between 0 and 100. -/
theorem pct_bounds {c t : ℕ} (hc : c ≤ t) (ht : 0 < t) :
    0 ≤ ((c : ℚ) / (t : ℚ)) * 100 ∧ ((c : ℚ) / (t : ℚ)) * 100 ≤ 100 := by
  have ht' : (0 : ℚ) < (t : ℚ) := by exact_mod_cast ht
  constructor
  · positivity
  · have h1 : (c : ℚ) / (t : ℚ) ≤ 1 := by
      rw [div_le_one ht']
      exact_mod_cast hc
    nlinarith

/-- Both phase-2 metadata fields are percentages in [0, 100]. -/
theorem calculate_topic_metadata_bounds (tq : List MergedRecord) :
    0 ≤ (calculate_topic_metadata tq).topic_accuracy
  ∧ (calculate_topic_metadata tq).topic_accuracy ≤ 100
  ∧ 0 ≤ (calculate_topic_metadata tq).attempt_ratio
  ∧ (calculate_topic_metadata tq).attempt_ratio ≤ 100 := by
  unfold calculate_topic_metadata
  by_cases h : tq.length = 0
  · simp [h]
  · have ht : 0 < tq.length := Nat.pos_of_ne_zero h
    have hc := List.countP_le_length
      (fun q => determine_correctness q.correct_option q.student_selected_option == "correct")
      (l := tq)
    have ha := List.countP_le_length
      (fun q => !(determine_correctness q.correct_option q.student_selected_option == "unattempted"))
      (l := tq)
    obtain ⟨hc0, hc1⟩ := pct_bounds hc ht
    obtain ⟨ha0, ha1⟩ := pct_bounds ha ht
    simp only [h, if_false]
    exact ⟨round2_nonneg hc0, round2_le_100 hc1, round2_nonneg ha0, round2_le_100 ha1⟩

/-- Bounds for the phase-5 metrics when the wrong list is the wrong-filter
    of the question list (as group_by_topic calls it): the accuracy is in
    [0, 100], the weighted accuracy is nonnegative, and the weighted
    accuracy stays at most 100 whenever the topic holds at most 100
    questions (the weight total/100 is then at most 1). -/
theorem calculate_topic_metrics_bounds (all_questions : List MergedRecord) :
    0 ≤ (calculate_topic_metrics all_questions (all_questions.filter is_wrong_question)).accuracy
  ∧ (calculate_topic_metrics all_questions (all_questions.filter is_wrong_question)).accuracy ≤ 100
  ∧ 0 ≤ (calculate_topic_metrics all_questions
      (all_questions.filter is_wrong_question)).weighted_accuracy
  ∧ (all_questions.length ≤ 100 →
      (calculate_topic_metrics all_questions
        (all_questions.filter is_wrong_question)).weighted_accuracy ≤ 100) := by
  unfold calculate_topic_metrics
  have hw : (all_questions.filter is_wrong_question).length ≤ all_questions.length :=
    List.length_filter_le _ _
  by_cases h : 0 < all_questions.length
  · set t := all_questions.length with hT
    set w := (all_questions.filter is_wrong_question).length with hW
    have ht' : (0 : ℚ) < (t : ℚ) := by exact_mod_cast h
    have hfrac0 : 0 ≤ (((t : ℤ) - (w : ℤ) : ℤ) : ℚ) / (t : ℚ) * 100 := by
      have : (0 : ℚ) ≤ (((t : ℤ) - (w : ℤ) : ℤ) : ℚ) := by
        push_cast
        have : (w : ℚ) ≤ (t : ℚ) := by exact_mod_cast hw
        linarith
      positivity
    have hfrac1 : (((t : ℤ) - (w : ℤ) : ℤ) : ℚ) / (t : ℚ) * 100 ≤ 100 := by
      have h1 : (((t : ℤ) - (w : ℤ) : ℤ) : ℚ) / (t : ℚ) ≤ 1 := by
        rw [div_le_one ht']
        push_cast
        linarith
      nlinarith
    have hacc0 : 0 ≤ round2 ((((t : ℤ) - (w : ℤ) : ℤ) : ℚ) / (t : ℚ) * 100) :=
      round2_nonneg hfrac0
    have hacc1 : round2 ((((t : ℤ) - (w : ℤ) : ℤ) : ℚ) / (t : ℚ) * 100) ≤ 100 :=
      round2_le_100 hfrac1
    simp only [h, if_pos]
    refine ⟨hacc0, hacc1, round2_nonneg (by positivity), fun hle => ?_⟩
    have hwt : (t : ℚ) / 100 ≤ 1 := by
      rw [div_le_one (by norm_num : (0 : ℚ) < 100)]
      exact_mod_cast hle
    have : round2 ((((t : ℤ) - (w : ℤ) : ℤ) : ℚ) / (t : ℚ) * 100) * ((t : ℚ) / 100) ≤ 100 := by
      nlinarith
    exact round2_le_100 this
  · simp only [h, if_neg, if_false]
    norm_num [round2]

/-- C2 (amended): phase-2 topic_accuracy and attempt_ratio always lie in
    [0, 100]; the phase-5 accuracy also lies in [0, 100] and
    weighted_accuracy is nonnegative, but weighted_accuracy is bounded by
    100 only for topics of at most 100 questions — for larger topics the
    weight total/100 exceeds 1 and the bound fails. -/
theorem C2_metric_ranges (tq all_questions : List MergedRecord) :
    (0 ≤ (calculate_topic_metadata tq).topic_accuracy
      ∧ (calculate_topic_metadata tq).topic_accuracy ≤ 100
      ∧ 0 ≤ (calculate_topic_metadata tq).attempt_ratio
      ∧ (calculate_topic_metadata tq).attempt_ratio ≤ 100)
  ∧ (0 ≤ (calculate_topic_metrics all_questions (all_questions.filter is_wrong_question)).accuracy
      ∧ (calculate_topic_metrics all_questions
          (all_questions.filter is_wrong_question)).accuracy ≤ 100
      ∧ 0 ≤ (calculate_topic_metrics all_questions
          (all_questions.filter is_wrong_question)).weighted_accuracy
      ∧ (all_questions.length ≤ 100 →
          (calculate_topic_metrics all_questions
            (all_questions.filter is_wrong_question)).weighted_accuracy ≤ 100)) :=
  ⟨calculate_topic_metadata_bounds tq, calculate_topic_metrics_bounds all_questions⟩

/-- filter keeps a replicated element the predicate accepts. -/
theorem filter_replicate_of_pos {p : α → Bool} {a : α} (h : p a = true) (n : ℕ) :
    (List.replicate n a).filter p = List.replicate n a := by
  induction n with
  | zero => rfl
  | succ n ih => simp [List.replicate_succ, List.filter_cons, h, ih]

/-- filter drops a replicated element the predicate rejects. -/
theorem filter_replicate_of_neg {p : α → Bool} {a : α} (h : p a = false) (n : ℕ) :
    (List.replicate n a).filter p = [] := by
  induction n with
  | zero => rfl
  | succ n ih => simp [List.replicate_succ, List.filter_cons, h, ih]

/-- C2 counterexample: on the 200-question topic with 180 correct answers
    the phase-5 weighted accuracy evaluates to 180, above 100 — the
    claimed unconditional [0, 100] range is false. -/
theorem C2_counterexample :
    (calculate_topic_metrics bigTopic (bigTopic.filter is_wrong_question)).weighted_accuracy
      = 180
    ∧ ¬ (calculate_topic_metrics bigTopic
          (bigTopic.filter is_wrong_question)).weighted_accuracy ≤ 100 := by
  have hOK : is_wrong_question qOK = false := by decide
  have hBad : is_wrong_question qBad = true := by decide
  have hfil : bigTopic.filter is_wrong_question = List.replicate 20 qBad := by
    unfold bigTopic
    rw [List.filter_append, filter_replicate_of_pos hBad, filter_replicate_of_neg hOK,
      List.nil_append]
  have hlen : bigTopic.length = 200 := by
    unfold bigTopic
    rw [List.length_append, List.length_replicate, List.length_replicate]
  rw [hfil]
  unfold calculate_topic_metrics
  rw [hlen]
  norm_num [List.length_replicate, round2]

/-- A student none of whose records pass the wrong-or-unattempted test
    yields no phase-5 topic groups at all. -/
theorem group_by_topic_eq_nil (records : List MergedRecord)
    (h : ∀ r ∈ records, is_wrong_question r = false) : group_by_topic records = [] := by
  unfold group_by_topic
  rw [List.filterMap_eq_nil_iff]
  intro topic _
  have hfil : (records.filter (fun r => r.topic == topic)).filter is_wrong_question = [] := by
    rw [List.filter_eq_nil_iff]
    intro r hr
    have := h r (List.mem_filter.mp hr).1
    simp [this]
  simp only [hfil]
  rfl

/-- C3 (amended): phase 5 treats unattempted questions as wrong
    (is_wrong_question is true for both), so a student is excluded from
    the phase-5 map exactly when no record is wrong-or-unattempted, and
    every emitted topic group carries a nonempty wrong-question list. -/
theorem C3_weak_topic_exclusion (records : List MergedRecord) (sid : String) :
    ((∀ r ∈ records, is_wrong_question r = false) →
        group_by_topic records = [] ∧ process_all_students [(sid, records)] = [])
  ∧ (∀ tg ∈ group_by_topic records, tg.2.wrong_questions ≠ []) := by
  constructor
  · intro h
    have hg := group_by_topic_eq_nil records h
    refine ⟨hg, ?_⟩
    unfold process_all_students
    simp [hg]
  · intro tg htg
    unfold group_by_topic at htg
    rw [List.mem_filterMap] at htg
    obtain ⟨topic, _, hbody⟩ := htg
    by_cases hw : ((records.filter (fun r => r.topic == topic)).filter
        is_wrong_question).isEmpty
    · simp only [hw, if_pos] at hbody
      exact absurd hbody (by simp)
    · simp only [hw, if_neg, Bool.false_eq_true, not_false_iff, Option.some.injEq] at hbody
      have hne : (records.filter (fun r => r.topic == topic)).filter is_wrong_question ≠ [] := by
        intro hnil
        rw [hnil] at hw
        exact hw rfl
      rw [← hbody]
      simp only [ne_eq, List.map_eq_nil_iff]
      exact hne

/-- Witness for C3: a student who answered everything correctly yields no
    topic groups and is excluded entirely. -/
theorem C3_witness :
    group_by_topic [qOK] = [] ∧ process_all_students [("S1", [qOK])] = [] :=
  (C3_weak_topic_exclusion [qOK] "S1").1 (by decide)

/-- C3 counterexample: a student whose only record is unattempted — hence
    has zero wrong answers under determine_correctness — is still
    included in the phase-5 output, because is_wrong_question also counts
    unattempted questions. -/
theorem C3_counterexample :
    determine_correctness qUnattempted.correct_option qUnattempted.student_selected_option
      = "unattempted"
  ∧ (process_all_students [("S1", [qUnattempted])]).length = 1 := by
  constructor
  · decide
  · rfl

/-- The pad-or-truncate step always returns exactly 5 items. -/
theorem ensure_five_length (pad : ℕ → α) (xs : List α) : (ensure_five pad xs).length = 5 := by
  unfold ensure_five
  by_cases h : xs.length < 5
  · simp only [h, if_pos, List.length_append, List.length_map, List.length_range]
    omega
  · simp only [h, if_neg, if_false, List.length_take]
    omega

/-- C5: for every raw response that is a list of any length, and every
    dict response carrying a list under the insights key, the phase-3 and
    phase-5 validators return exactly 5 items. -/
theorem C5_exactly_five (items : List JVal) (fields : JDict) :
    (validate_and_repair_insights (JVal.arr items)).length = 5
  ∧ (validate_insights (JVal.arr items)).length = 5
  ∧ (jLookup fields "insights" = some (JVal.arr items) →
      (validate_and_repair_insights (JVal.obj fields)).length = 5
      ∧ (validate_insights (JVal.obj fields)).length = 5) := by
  refine ⟨?_, ?_, fun h => ⟨?_, ?_⟩⟩
  · simp [validate_and_repair_insights, ensure_five_length]
  · simp [validate_insights, ensure_five_length]
  · simp [validate_and_repair_insights, h, ensure_five_length]
  · simp [validate_insights, h, ensure_five_length]

/-- Witness for C5: the empty list, bare and wrapped, yields 5 items in
    both validators. -/
theorem C5_witness :
    (validate_and_repair_insights (JVal.arr [])).length = 5
  ∧ (validate_insights (JVal.arr [])).length = 5
  ∧ ((validate_and_repair_insights (JVal.obj [("insights", JVal.arr [])])).length = 5
      ∧ (validate_insights (JVal.obj [("insights", JVal.arr [])])).length = 5) :=
  have h := C5_exactly_five [] [("insights", JVal.arr [])]
  ⟨h.1, h.2.1, h.2.2 rfl⟩

/-- The phase-3 item pass keeps exactly the dict items. -/
theorem p3_validate_items_length (i : ℕ) (items : List JVal) :
    (p3_validate_items i items).length = items.countP isJObj := by
  induction items generalizing i with
  | nil => rfl
  | cons it rest ih =>
    cases it <;> simp [p3_validate_items, isJObj, List.countP_cons, ih]

/-- The phase-2 item pass keeps exactly the dict items. -/
theorem p2_validate_items_length (chunk : SubjectChunk) (i : ℕ) (items : List JVal) :
    (p2_validate_items chunk i items).length = items.countP isJObj := by
  induction items generalizing i with
  | nil => rfl
  | cons it rest ih =>
    cases it <;> simp [p2_validate_items, isJObj, List.countP_cons, ih]

/-- The length of a filterMap counts the inputs mapped to some. -/
theorem length_filterMap_eq_countP (f : α → Option β) (l : List α) :
    (l.filterMap f).length = l.countP (fun a => (f a).isSome) := by
  induction l with
  | nil => rfl
  | cons a l ih =>
    rw [List.filterMap_cons, List.countP_cons]
    cases h : f a <;> simp [h, ih]

/-- The phase-5 item pass keeps exactly the dict items that already hold
    every required field. -/
theorem p5_validate_items_length (items : List JVal) :
    (p5_validate_items items).length = items.countP p5_has_all_fields := by
  unfold p5_validate_items
  rw [length_filterMap_eq_countP]
  apply List.countP_congr
  intro a _
  cases a with
  | obj fields =>
    simp only [p5_has_all_fields]
    by_cases h : (p5_required_fields.all fun f => jHasKey fields f) = true
    · simp [h]
    · simp [h]
  | null => rfl
  | str s => rfl
  | num q => rfl
  | arr xs => rfl

/-- C4 (amended): the phase-2 and phase-3 validators keep every mapping
    item (repairing missing fields with deterministic fallbacks, as the
    phase-3 citation fallback illustrates), and drop only non-mappings;
    the phase-5 validator instead keeps exactly the mapping items that
    already hold all required fields, silently dropping any mapping with
    a missing field. -/
theorem C4_missing_field_repair (chunk : SubjectChunk) (items : List JVal) (i : ℕ)
    (fields : JDict) :
    (p2_validate_items chunk i items).length = items.countP isJObj
  ∧ (p3_validate_items i items).length = items.countP isJObj
  ∧ (p5_validate_items items).length = items.countP p5_has_all_fields
  ∧ (jLookup fields "citation" = none →
      (p3_repair_item i fields).citation = "Insufficient data") := by
  refine ⟨p2_validate_items_length chunk i items, p3_validate_items_length i items,
    p5_validate_items_length items, fun h => ?_⟩
  simp only [p3_repair_item, p3_field, h]
  decide

/-- C4 counterexample: a mapping item that has a topic field but lacks
    the other phase-5 required fields is dropped by the phase-5 item
    pass, although it is a mapping. -/
theorem C4_counterexample :
    isJObj (JVal.obj [("topic", JVal.str "X")]) = true
  ∧ p5_validate_items [JVal.obj [("topic", JVal.str "X")]] = [] := ⟨rfl, rfl⟩

/-- Looking up the assigned key in the replace-in-place branch. -/
theorem jLookup_replace_self (d : JDict) (k : String) (v : JVal)
    (h : (d.any fun p => p.1 = k) = true) :
    jLookup (d.map (fun p => if p.1 = k then (k, v) else p)) k = some v := by
  induction d with
  | nil => simp at h
  | cons p d ih =>
    by_cases hp : p.1 = k
    · rw [List.map_cons, if_pos hp]
      simp [jLookup]
    · rw [List.map_cons, if_neg hp]
      have htail : (d.any fun p => p.1 = k) = true := by
        rcases List.any_eq_true.mp h with ⟨q, hq, hqk⟩
        rcases List.mem_cons.mp hq with rfl | hq2
        · exact absurd (of_decide_eq_true hqk) hp
        · exact List.any_eq_true.mpr ⟨q, hq2, hqk⟩
      simpa [jLookup, hp] using ih htail

/-- Looking up the assigned key in the append branch. -/
theorem jLookup_append_self (d : JDict) (k : String) (v : JVal)
    (h : (d.any fun p => p.1 = k) = false) :
    jLookup (d ++ [(k, v)]) k = some v := by
  induction d with
  | nil => simp [jLookup]
  | cons p d ih =>
    rw [List.any_cons, Bool.or_eq_false_iff] at h
    have hp : ¬ p.1 = k := by simpa using h.1
    simpa [jLookup, hp] using ih h.2

/-- Replacing one key leaves lookups of any other key unchanged. -/
theorem jLookup_replace_other (d : JDict) (k k2 : String) (v : JVal) (h : k2 ≠ k) :
    jLookup (d.map (fun p => if p.1 = k then (k, v) else p)) k2 = jLookup d k2 := by
  induction d with
  | nil => rfl
  | cons p d ih =>
    by_cases hp : p.1 = k
    · have h1 : ¬ (k = k2) := fun hc => h hc.symm
      have h2 : ¬ (p.1 = k2) := by rw [hp]; exact h1
      rw [List.map_cons, if_pos hp]
      simpa [jLookup, h1, h2] using ih
    · by_cases hq : p.1 = k2
      · rw [List.map_cons, if_neg hp]
        simp [jLookup, hq]
      · rw [List.map_cons, if_neg hp]
        simpa [jLookup, hq] using ih

/-- Appending a fresh key leaves lookups of any other key unchanged. -/
theorem jLookup_append_other (d : JDict) (k k2 : String) (v : JVal) (h : k2 ≠ k) :
    jLookup (d ++ [(k, v)]) k2 = jLookup d k2 := by
  induction d with
  | nil =>
    have h1 : ¬ (k = k2) := fun hc => h hc.symm
    simp [jLookup, h1]
  | cons p d ih =>
    by_cases hq : p.1 = k2
    · simp [jLookup, hq]
    · simpa [jLookup, hq] using ih

/-- After a dict assignment the assigned key reads back the new value. -/
theorem jLookup_jSet_self (d : JDict) (k : String) (v : JVal) :
    jLookup (jSet d k v) k = some v := by
  unfold jSet dictInsert
  by_cases h : (d : List (String × JVal)).any (fun p => p.1 = k) = true
  · rw [if_pos h]
    exact jLookup_replace_self d k v h
  · rw [if_neg h]
    exact jLookup_append_self d k v (Bool.eq_false_iff.mpr h)

/-- A dict assignment leaves every other key unchanged. -/
theorem jLookup_jSet_other (d : JDict) (k k2 : String) (v : JVal) (h : k2 ≠ k) :
    jLookup (jSet d k v) k2 = jLookup d k2 := by
  unfold jSet dictInsert
  by_cases ha : (d : List (String × JVal)).any (fun p => p.1 = k) = true
  · rw [if_pos ha]
    exact jLookup_replace_other d k k2 v h
  · rw [if_neg ha]
    exact jLookup_append_other d k k2 v h

/-- C7: the phase-3 and phase-5 student writers assign the whole insight
    list to their dedicated top-level key, replacing any prior value
    there, and leave every other key of the student file untouched. -/
theorem C7_dedicated_key_frame (d : JDict) (student_id : String) (v : JVal) (k : String) :
    jLookup (p3_write_student_insights (some d) student_id v) "pattern_insights" = some v
  ∧ (k ≠ "pattern_insights" →
      jLookup (p3_write_student_insights (some d) student_id v) k = jLookup d k)
  ∧ p5_write_student_insights (some d) v = some (jSet d "phase5_insights" v)
  ∧ jLookup (jSet d "phase5_insights" v) "phase5_insights" = some v
  ∧ (k ≠ "phase5_insights" → jLookup (jSet d "phase5_insights" v) k = jLookup d k) :=
  ⟨jLookup_jSet_self d "pattern_insights" v,
   fun hk => jLookup_jSet_other d "pattern_insights" k v hk,
   rfl,
   jLookup_jSet_self d "phase5_insights" v,
   fun hk => jLookup_jSet_other d "phase5_insights" k v hk⟩

/-- C10: with no per-student phase-4 file the phase-5 writer writes
    nothing, while the phase-3 writer creates a fresh file holding
    student_id plus the new key; the phase-5 summary JSON still carries
    every insight of the student. -/
theorem C10_missing_file_divergence (student_id : String) (v : JVal) (sid : String)
    (ins : List Insight5) :
    p5_write_student_insights none v = none
  ∧ p3_write_student_insights none student_id v
      = [("student_id", JVal.str student_id), ("pattern_insights", v)]
  ∧ (∀ row ∈ write_insights_json [(sid, ins)], row.student_id = sid) := by
  refine ⟨rfl, rfl, ?_⟩
  intro row hrow
  unfold write_insights_json at hrow
  simp only [List.foldr_cons, List.foldr_nil, List.append_nil, List.mem_map] at hrow
  obtain ⟨e, _, rfl⟩ := hrow
  rfl

mutual
/-- Structural JSON equality is reflexive. -/
theorem JVal.beq_refl : ∀ a : JVal, JVal.beq a a = true
  | .null => rfl
  | .str s => by simp [JVal.beq]
  | .num q => by simp [JVal.beq]
  | .arr xs => by simpa [JVal.beq] using JVal.beqList_refl xs
  | .obj fs => by simpa [JVal.beq] using JVal.beqFields_refl fs
/-- Structural JSON array equality is reflexive. -/
theorem JVal.beqList_refl : ∀ xs : List JVal, JVal.beqList xs xs = true
  | [] => rfl
  | x :: xs => by simpa [JVal.beqList] using And.intro (JVal.beq_refl x) (JVal.beqList_refl xs)
/-- Structural JSON field-list equality is reflexive. -/
theorem JVal.beqFields_refl : ∀ fs : List (String × JVal), JVal.beqFields fs fs = true
  | [] => rfl
  | f :: fs => by simpa [JVal.beqFields] using And.intro (JVal.beq_refl f.2) (JVal.beqFields_refl fs)
end

/-- Structural JSON equality is reflexive on identity pairs. -/
theorem key_beq_refl (k : JVal × JVal) : key_beq k k = true := by
  simp [key_beq, JVal.beq_refl]

/-- A key present in the accumulator stays present through the whole
    append loop. -/
theorem upsert_keys_mono (new : List JDict) (acc : List JDict) (k : JVal × JVal)
    (h : key_mem k (acc.map insight_key) = true) :
    key_mem k ((new.foldl upsert_step acc).map insight_key) = true := by
  induction new generalizing acc with
  | nil => exact h
  | cons i rest ih =>
    rw [List.foldl_cons]
    apply ih
    unfold upsert_step
    by_cases hm : key_mem (insight_key i) (acc.map insight_key) = true
    · rw [if_pos hm]
      exact h
    · rw [if_neg hm]
      unfold key_mem at h ⊢
      rw [List.map_append, List.any_append, h]
      rfl

/-- Every incoming insight's identity is present after the append loop:
    it was either already there or has just been appended. -/
theorem upsert_key_in_result (new : List JDict) (acc : List JDict) (i : JDict) (hi : i ∈ new) :
    key_mem (insight_key i) ((new.foldl upsert_step acc).map insight_key) = true := by
  induction new generalizing acc with
  | nil => cases hi
  | cons j rest ih =>
    rw [List.foldl_cons]
    rcases List.mem_cons.mp hi with rfl | hi2
    · apply upsert_keys_mono
      unfold upsert_step
      by_cases hm : key_mem (insight_key i) (acc.map insight_key) = true
      · rw [if_pos hm]
        exact hm
      · rw [if_neg hm]
        unfold key_mem
        rw [List.map_append, List.any_append]
        simp [key_beq_refl]
    · exact ih _ hi2

/-- The append loop is a no-op when every incoming identity is already
    present. -/
theorem upsert_noop (new : List JDict) (acc : List JDict)
    (h : ∀ i ∈ new, key_mem (insight_key i) (acc.map insight_key) = true) :
    new.foldl upsert_step acc = acc := by
  induction new with
  | nil => rfl
  | cons j rest ih =>
    rw [List.foldl_cons]
    have hj : upsert_step acc j = acc := by
      unfold upsert_step
      rw [if_pos (h j (List.mem_cons_self j rest))]
    rw [hj]
    exact ih (fun i hi => h i (List.mem_cons_of_mem j hi))

/-- C6: rewriting the same student with the same insight list leaves the
    stored file unchanged; an insight whose (test_name, topic_name)
    identity already exists is silently dropped, and only insights with a
    novel identity are appended. -/
theorem C6_upsert_idempotent (student_id : String) (insights : List JDict)
    (file : Option StudentFile2) (existing : List JDict) (i : JDict) :
    write_student_output student_id insights
        (some (write_student_output student_id insights file))
      = write_student_output student_id insights file
  ∧ (key_mem (insight_key i) (existing.map insight_key) = true →
      upsert_insights existing [i] = existing)
  ∧ (key_mem (insight_key i) (existing.map insight_key) = false →
      upsert_insights existing [i] = existing ++ [i]) := by
  refine ⟨?_, fun h => ?_, fun h => ?_⟩
  · unfold write_student_output
    simp only [StudentFile2.mk.injEq, true_and]
    exact upsert_noop insights _
      (fun i hi => upsert_key_in_result insights _ i hi)
  · unfold upsert_insights
    rw [List.foldl_cons, List.foldl_nil]
    unfold upsert_step
    rw [if_pos h]
  · unfold upsert_insights
    rw [List.foldl_cons, List.foldl_nil]
    unfold upsert_step
    rw [if_neg (by simp [h])]

/-- A dict-insert result's entries carry either the inserted value or a
    value already present. -/
theorem dictInsert_values [DecidableEq κ] (m : List (κ × α)) (k : κ) (v : α) (e : κ × α)
    (he : e ∈ dictInsert m k v) : e.2 = v ∨ ∃ e2 ∈ m, e.2 = e2.2 := by
  unfold dictInsert at he
  by_cases h : (m.any fun p => p.1 = k) = true
  · rw [if_pos h] at he
    rcases List.mem_map.mp he with ⟨p, hp, rfl⟩
    by_cases hpk : p.1 = k
    · rw [if_pos hpk]
      exact Or.inl rfl
    · rw [if_neg hpk]
      exact Or.inr ⟨p, hp, rfl⟩
  · rw [if_neg h] at he
    rcases List.mem_append.mp he with h1 | h2
    · exact Or.inr ⟨e, h1, rfl⟩
    · rcases List.mem_singleton.mp h2 with rfl
      exact Or.inl rfl

/-- Every value of the built answer map is the stripped-and-uppercased
    second column of some answer key row. -/
theorem build_answer_map_values (P : String → Prop) (rows : List (Int × String))
    (hr : ∀ r ∈ rows, P (pyUpper (pyStrip r.2))) :
    ∀ e ∈ build_answer_map rows, P e.2 := by
  unfold build_answer_map
  suffices h : ∀ (m : List (Int × String)), (∀ e ∈ m, P e.2) →
      ∀ e ∈ rows.foldl (fun m r => dictInsert m r.1 (pyUpper (pyStrip r.2))) m, P e.2 by
    exact h [] (by simp)
  induction rows with
  | nil => intro m hm e he; exact hm e he
  | cons r rest ih =>
    intro m hm e he
    rw [List.foldl_cons] at he
    refine ih (fun q hq => hr q (List.mem_cons_of_mem r hq)) _ ?_ e he
    intro e2 he2
    rcases dictInsert_values m r.1 (pyUpper (pyStrip r.2)) e2 he2 with h1 | ⟨e3, he3, h3⟩
    · rw [h1]
      exact hr r (List.mem_cons_self r rest)
    · rw [h3]
      exact hm e3 he3

/-- A successful dict lookup returns the value of an entry of the map. -/
theorem dictFind_mem [DecidableEq κ] (m : List (κ × α)) (k : κ) (v : α)
    (h : dictFind m k = some v) : ∃ e ∈ m, e.2 = v := by
  induction m with
  | nil => cases h
  | cons p rest ih =>
    unfold dictFind at h
    by_cases hp : p.1 = k
    · rw [if_pos hp] at h
      exact ⟨p, List.mem_cons_self p rest, (Option.some.injEq _ _).mp h⟩
    · rw [if_neg hp] at h
      rcases ih h with ⟨e, he, hv⟩
      exact ⟨e, List.mem_cons_of_mem p he, hv⟩

/-- Every record of a successful merge has its selection in
    {A, B, C, D, ""} and a nonempty correct option drawn from the answer
    map's values. -/
theorem merge_rows_records (qm : List (Int × QuestionDetails)) (am : List (Int × String))
    (rows : List ResponseRow) (out : List MergedRecord)
    (h : merge_rows qm am rows = Except.ok out) :
    ∀ r ∈ out,
      r.student_selected_option ∈ (["A", "B", "C", "D", ""] : List String)
      ∧ r.correct_option ≠ ""
      ∧ ∃ e ∈ am, e.2 = r.correct_option := by
  induction rows generalizing out with
  | nil =>
    unfold merge_rows at h
    injection h with h
    subst h
    intro r hr
    cases hr
  | cons row rest ih =>
    unfold merge_rows at h
    cases hq : dictFind qm row.question_number with
    | none =>
      simp only [hq] at h
      exact ih out h
    | some qd =>
      simp only [hq] at h
      cases ha : dictFind am row.question_number with
      | none =>
        simp only [ha] at h
        exact Except.noConfusion h
      | some co =>
        simp only [ha] at h
        by_cases hco : co = ""
        · rw [if_pos hco] at h
          simp at h
        · rw [if_neg hco] at h
          cases hrest : merge_rows qm am rest with
          | error e =>
            rw [hrest] at h
            simp [Except.map] at h
          | ok tail =>
            rw [hrest] at h
            simp only [Except.map, Except.ok.injEq] at h
            subst h
            intro r hr
            rcases List.mem_append.mp hr with h1 | h2
            · rcases List.mem_map.mp h1 with ⟨p, _, rfl⟩
              refine ⟨?_, hco, ?_⟩
              · unfold build_merged_record
                by_cases hs : (match p.2 with
                  | none => ""
                  | some s => pyUpper (pyStrip s)) ∈ (["A", "B", "C", "D"] : List String)
                · simp only [if_pos hs]
                  exact List.mem_append_left [""] hs
                · simp only [if_neg hs]
                  simp
              · rcases dictFind_mem am row.question_number co ha with ⟨e, he, hv⟩
                exact ⟨e, he, hv⟩
            · exact ih tail hrest r h2

/-- C8 (amended): every merged record's student_selected_option lies in
    {A, B, C, D, ""}; its correct_option is nonempty and is some answer
    key value stripped and uppercased, but the merge never validates it
    against A-D — it lies in {A, B, C, D} only when every answer key
    value uppercases into that set. -/
theorem C8_option_domains (qm : List (Int × QuestionDetails)) (answer_rows : List (Int × String))
    (rows : List ResponseRow) (out : List MergedRecord)
    (h : merge_rows qm (build_answer_map answer_rows) rows = Except.ok out) :
    ∀ r ∈ out,
      r.student_selected_option ∈ (["A", "B", "C", "D", ""] : List String)
      ∧ r.correct_option ≠ ""
      ∧ ((∀ e ∈ answer_rows, pyUpper (pyStrip e.2) ∈ (["A", "B", "C", "D"] : List String)) →
          r.correct_option ∈ (["A", "B", "C", "D"] : List String)) := by
  intro r hr
  obtain ⟨h1, h2, e, he, hv⟩ := merge_rows_records qm (build_answer_map answer_rows) rows out h r hr
  refine ⟨h1, h2, fun hall => ?_⟩
  rw [← hv]
  exact build_answer_map_values (fun s => s ∈ (["A", "B", "C", "D"] : List String))
    answer_rows hall e he

/-- Witness for C8: the one-question, one-student merge with answer key
    value "a" succeeds and its record satisfies all three conclusions. -/
theorem C8_witness :
    mrec0.student_selected_option ∈ (["A", "B", "C", "D", ""] : List String)
  ∧ mrec0.correct_option ≠ ""
  ∧ ((∀ e ∈ [((1 : Int), "a")], pyUpper (pyStrip e.2) ∈ (["A", "B", "C", "D"] : List String)) →
      mrec0.correct_option ∈ (["A", "B", "C", "D"] : List String)) :=
  C8_option_domains [(1, qd0)] [(1, "a")] [mrow0] [mrec0] rfl mrec0
    (List.mem_singleton_self mrec0)

/-- C8 counterexample: an answer key row (1, "e") flows through the
    merge unvalidated — the produced record's correct_option is "E",
    outside {A, B, C, D}. -/
theorem C8_counterexample :
    merge_rows [(1, qd0)] (build_answer_map [(1, "e")]) [mrow0]
      = Except.ok [build_merged_record 1 qd0 "E" "S1" (some "b")]
  ∧ (build_merged_record 1 qd0 "E" "S1" (some "b")).correct_option = "E"
  ∧ "E" ∉ (["A", "B", "C", "D"] : List String) := by
  refine ⟨rfl, rfl, by decide⟩

/-- C9: the merge fails (with an error, producing no output) exactly when
    some response row's question number is present in the question map
    but has no resolvable (present and nonempty) answer in the answer
    map; and a row whose question number is absent from the question map
    is skipped, the merge continuing over the remaining rows unchanged. -/
theorem C9_fatal_answer_skip_question (qm : List (Int × QuestionDetails))
    (am : List (Int × String)) (rows : List ResponseRow) (row : ResponseRow) :
    ((∃ e, merge_rows qm am rows = Except.error e) ↔
      ∃ q ∈ rows, dictFind qm q.question_number ≠ none
        ∧ (dictFind am q.question_number = none ∨ dictFind am q.question_number = some ""))
  ∧ (dictFind qm row.question_number = none →
      merge_rows qm am (row :: rows) = merge_rows qm am rows) := by
  constructor
  · induction rows with
    | nil =>
      simp only [merge_rows]
      constructor
      · rintro ⟨e, he⟩
        exact Except.noConfusion he
      · rintro ⟨q, hq, _⟩
        cases hq
    | cons row1 rest ih =>
      cases hq : dictFind qm row1.question_number with
      | none =>
        have hstep : merge_rows qm am (row1 :: rest) = merge_rows qm am rest := by
          conv_lhs => rw [merge_rows]
          simp only [hq]
        rw [hstep]
        constructor
        · intro he
          rcases ih.mp he with ⟨q, hmem, hcond⟩
          exact ⟨q, List.mem_cons_of_mem row1 hmem, hcond⟩
        · rintro ⟨q, hmem, hcond⟩
          rcases List.mem_cons.mp hmem with rfl | hmem2
          · exact absurd hq hcond.1
          · exact ih.mpr ⟨q, hmem2, hcond⟩
      | some qd =>
        cases ha : dictFind am row1.question_number with
        | none =>
          have hstep : merge_rows qm am (row1 :: rest)
              = Except.error ("Missing correct answer for question "
                  ++ toString row1.question_number) := by
            conv_lhs => rw [merge_rows]
            simp only [hq, ha]
          rw [hstep]
          constructor
          · intro _
            exact ⟨row1, List.mem_cons_self row1 rest, by simp [hq, ha]⟩
          · intro _
            exact ⟨_, rfl⟩
        | some co =>
          by_cases hco : co = ""
          · have hstep : merge_rows qm am (row1 :: rest)
                = Except.error ("Missing correct answer for question "
                    ++ toString row1.question_number) := by
              conv_lhs => rw [merge_rows]
              simp only [hq, ha]
              rw [if_pos hco]
            rw [hstep]
            constructor
            · intro _
              exact ⟨row1, List.mem_cons_self row1 rest, by simp [hq, ha, hco]⟩
            · intro _
              exact ⟨_, rfl⟩
          · have hstep : merge_rows qm am (row1 :: rest)
                = (merge_rows qm am rest).map (fun tail =>
                    (row1.responses.map (fun p =>
                      build_merged_record row1.question_number qd co p.1 p.2)) ++ tail) := by
              conv_lhs => rw [merge_rows]
              simp only [hq, ha]
              rw [if_neg hco]
            rw [hstep]
            cases hrest : merge_rows qm am rest with
            | error e =>
              constructor
              · intro _
                rcases ih.mp ⟨e, hrest⟩ with ⟨q, hmem, hcond⟩
                exact ⟨q, List.mem_cons_of_mem row1 hmem, hcond⟩
              · intro _
                exact ⟨e, rfl⟩
            | ok tail =>
              constructor
              · rintro ⟨e, he⟩
                exact absurd he (by simp [Except.map])
              · rintro ⟨q, hmem, hcond⟩
                exfalso
                rcases List.mem_cons.mp hmem with rfl | hmem2
                · rw [ha] at hcond
                  rcases hcond.2 with h2 | h2
                  · exact Option.noConfusion h2
                  · exact hco ((Option.some.injEq _ _).mp h2)
                · rcases ih.mpr ⟨q, hmem2, hcond⟩ with ⟨e, he⟩
                  rw [hrest] at he
                  exact Except.noConfusion he
  · intro h
    conv_lhs => rw [merge_rows]
    simp only [h]

/-- Witness for C9: with question 1 absent from the question map the
    first row is skipped and the merge equals the merge of the tail. -/
theorem C9_witness :
    merge_rows [((2 : Int), qd0)] (build_answer_map [(2, "c")]) [mrow0]
      = merge_rows [((2 : Int), qd0)] (build_answer_map [(2, "c")]) [] :=
  (C9_fatal_answer_skip_question [((2 : Int), qd0)] (build_answer_map [(2, "c")]) [] mrow0).2
    rfl

